import Mathlib

/-!
Verification of the fuzzy-logic core of the swiss-quest repository.

Numbers are modelled as rationals (`ℚ`); the TypeScript code computes with
IEEE doubles, but every claim under consideration concerns exact algebraic
identities and orderings, for which the rational model is the faithful
idealisation.  The one genuinely real-valued operation, `Math.pow` with a
fractional exponent in `compensatoryAnd`, is modelled with `Real.rpow`.

Source files embedded below:
- `src/lib/fuzzy/operators.ts` (T-norms, T-conorms, aggregation)
- `src/lib/textMatching.ts` (Levenshtein distance and string similarity)
- `src/lib/fuzzy/fuzzySets.ts` (fuzzy sets, variables, fuzzify)
- `src/lib/fuzzy/defuzzification.ts` (standalone defuzzifiers)
- `src/lib/fuzzy/inference.ts` (Mamdani inference engine)
- `src/lib/fuzzy/linguisticQuantifiers.ts` (quantifiers, getBestQuantifier)
- `src/lib/fuzzy/fuzzyMetrics.ts` (fuzzy precision / recall / F1)
-/

-- ============================================================================
-- operators.ts : T-norms
-- ============================================================================

/-- Minimum T-norm, `tNormMin(a, b) = min(a, b)`. -/
def tNormMin (a b : ℚ) : ℚ := min a b

/-- Algebraic product T-norm, `tNormProduct(a, b) = a * b`. -/
def tNormProduct (a b : ℚ) : ℚ := a * b

/-- Łukasiewicz T-norm, `tNormLukasiewicz(a, b) = max(0, a + b - 1)`. -/
def tNormLukasiewicz (a b : ℚ) : ℚ := max 0 (a + b - 1)

/-- Drastic T-norm: `b` if `a === 1`, `a` if `b === 1`, else `0`. -/
def tNormDrastic (a b : ℚ) : ℚ :=
  if a = 1 then b else if b = 1 then a else 0

-- ============================================================================
-- operators.ts : T-conorms
-- ============================================================================

/-- Maximum T-conorm, `tConormMax(a, b) = max(a, b)`. -/
def tConormMax (a b : ℚ) : ℚ := max a b

/-- Probabilistic sum T-conorm, `a + b - a * b`. -/
def tConormProbabilisticSum (a b : ℚ) : ℚ := a + b - a * b

/-- Łukasiewicz T-conorm, `min(1, a + b)`. -/
def tConormLukasiewicz (a b : ℚ) : ℚ := min 1 (a + b)

/-- Drastic T-conorm: `b` if `a === 0`, `a` if `b === 0`, else `1`. -/
def tConormDrastic (a b : ℚ) : ℚ :=
  if a = 0 then b else if b = 0 then a else 1

-- ============================================================================
-- operators.ts : implications and aggregation
-- ============================================================================

/-- Mamdani implication, `min(a, b)`. -/
def implicationMamdani (a b : ℚ) : ℚ := min a b

/-- Fold a list of fuzzy values through a T-norm, starting from 1.
The empty list returns 1 (the early return of the source). -/
def aggregateAnd (values : List ℚ) (tNorm : ℚ → ℚ → ℚ) : ℚ :=
  if values.length = 0 then 1
  else values.foldl (fun acc val => tNorm acc val) 1

/-- Fold a list of fuzzy values through a T-conorm, starting from 0.
The empty list returns 0 (the early return of the source). -/
def aggregateOr (values : List ℚ) (tConorm : ℚ → ℚ → ℚ) : ℚ :=
  if values.length = 0 then 0
  else values.foldl (fun acc val => tConorm acc val) 0

/-- Compensatory AND: `(T-norm result)^(1-γ) * (arithmetic mean)^γ`, with the
exponentiation of `Math.pow` modelled by `Real.rpow`. -/
noncomputable def compensatoryAnd (values : List ℚ) (gamma : ℚ) : ℝ :=
  if values.length = 0 then 1
  else
    ((aggregateAnd values tNormProduct : ℚ) : ℝ) ^ ((1 - gamma : ℚ) : ℝ) *
      ((values.sum / values.length : ℚ) : ℝ) ^ ((gamma : ℚ) : ℝ)

-- ============================================================================
-- C1 : ordering of the T-norms and T-conorms
-- ============================================================================

/-- C1 (counterexample): the ordering stated by the spec,
`tNormMin ≤ tNormProduct` and `tConormProbabilisticSum ≤ tConormMax`,
fails at `a = b = 1/2`: `tNormMin = 1/2 > 1/4 = tNormProduct` and
`tConormMax = 1/2 < 3/4 = tConormProbabilisticSum`. -/
theorem tNorm_ordering_as_stated_false :
    tNormMin (1/2) (1/2) = 1/2 ∧ tNormProduct (1/2) (1/2) = 1/4 ∧
    ¬ tNormMin (1/2) (1/2) ≤ tNormProduct (1/2) (1/2) ∧
    ¬ tConormProbabilisticSum (1/2) (1/2) ≤ tConormMax (1/2) (1/2) := by
  refine ⟨by simp [tNormMin], by norm_num [tNormProduct], ?_, ?_⟩
  · simp only [tNormMin, tNormProduct, min_self]
    norm_num
  · simp only [tConormMax, tConormProbabilisticSum, max_self]
    norm_num

/-- C1 (amended): for all `a, b ∈ [0,1]` the T-norms are ordered
`tNormDrastic ≤ tNormLukasiewicz ≤ tNormProduct ≤ tNormMin` (the reverse of
the direction written in the spec), and dually the T-conorms are ordered
`tConormMax ≤ tConormProbabilisticSum ≤ tConormLukasiewicz ≤ tConormDrastic`. -/
theorem tNorm_tConorm_ordering (a b : ℚ)
    (ha0 : 0 ≤ a) (ha1 : a ≤ 1) (hb0 : 0 ≤ b) (hb1 : b ≤ 1) :
    (tNormDrastic a b ≤ tNormLukasiewicz a b ∧
     tNormLukasiewicz a b ≤ tNormProduct a b ∧
     tNormProduct a b ≤ tNormMin a b) ∧
    (tConormMax a b ≤ tConormProbabilisticSum a b ∧
     tConormProbabilisticSum a b ≤ tConormLukasiewicz a b ∧
     tConormLukasiewicz a b ≤ tConormDrastic a b) := by
  have hab : 0 ≤ (1 - a) * (1 - b) := mul_nonneg (by linarith) (by linarith)
  constructor
  · refine ⟨?_, ?_, ?_⟩
    · unfold tNormDrastic tNormLukasiewicz
      split_ifs with h1 h2
      · subst h1
        have e : (1 : ℚ) + b - 1 = b := by ring
        rw [e]
        exact le_max_right 0 b
      · subst h2
        have e : a + (1 : ℚ) - 1 = a := by ring
        rw [e]
        exact le_max_right 0 a
      · exact le_max_left 0 _
    · unfold tNormLukasiewicz tNormProduct
      refine max_le (by positivity) (by nlinarith)
    · unfold tNormProduct tNormMin
      exact le_min (mul_le_of_le_one_right ha0 hb1) (mul_le_of_le_one_left hb0 ha1)
  · refine ⟨?_, ?_, ?_⟩
    · unfold tConormMax tConormProbabilisticSum
      refine max_le (by nlinarith) (by nlinarith)
    · unfold tConormProbabilisticSum tConormLukasiewicz
      refine le_min (by nlinarith) (by nlinarith)
    · unfold tConormLukasiewicz tConormDrastic
      split_ifs with h1 h2
      · subst h1
        rw [zero_add]
        exact min_le_right 1 b
      · subst h2
        rw [add_zero]
        exact min_le_right 1 a
      · exact min_le_left 1 _

/-- C1 (witness): the amended ordering at the concrete point `a = 1/2`,
`b = 1/3`. -/
theorem tNorm_tConorm_ordering_witness :
    (0 ≤ (1/2 : ℚ) ∧ (1/2 : ℚ) ≤ 1 ∧ 0 ≤ (1/3 : ℚ) ∧ (1/3 : ℚ) ≤ 1) ∧
    tNormDrastic (1/2) (1/3) ≤ tNormLukasiewicz (1/2) (1/3) ∧
    tNormLukasiewicz (1/2) (1/3) ≤ tNormProduct (1/2) (1/3) ∧
    tNormProduct (1/2) (1/3) ≤ tNormMin (1/2) (1/3) :=
  ⟨⟨by norm_num, by norm_num, by norm_num, by norm_num⟩,
    (tNorm_tConorm_ordering (1/2) (1/3)
      (by norm_num) (by norm_num) (by norm_num) (by norm_num)).1⟩

-- ============================================================================
-- C7 : neutral elements of the empty aggregation
-- ============================================================================

/-- C7: `aggregateAnd [] = 1` and `aggregateOr [] = 0` for every choice of
T-norm / T-conorm argument. -/
theorem aggregate_empty_neutral (tNorm tConorm : ℚ → ℚ → ℚ) :
    aggregateAnd [] tNorm = 1 ∧ aggregateOr [] tConorm = 0 :=
  ⟨rfl, rfl⟩

-- ============================================================================
-- C8 : compensatoryAnd at γ = 0 and γ = 1
-- ============================================================================

/-- C8: on a non-empty list, `compensatoryAnd values 0` is exactly the
algebraic-product T-norm aggregation of the values and `compensatoryAnd
values 1` is exactly their arithmetic mean; in particular
`compensatoryAnd [0.8, 0.8] 0 = 0.64` and `compensatoryAnd [0.8, 0.8] 1 = 0.8`. -/
theorem compensatoryAnd_gamma_extremes (values : List ℚ) (h : values ≠ []) :
    (compensatoryAnd values 0 = ((aggregateAnd values tNormProduct : ℚ) : ℝ) ∧
     compensatoryAnd values 1 = ((values.sum / values.length : ℚ) : ℝ)) ∧
    (compensatoryAnd [(0.8 : ℚ), 0.8] 0 = ((0.64 : ℚ) : ℝ) ∧
     compensatoryAnd [(0.8 : ℚ), 0.8] 1 = ((0.8 : ℚ) : ℝ)) := by
  have key : ∀ (vs : List ℚ), vs ≠ [] →
      compensatoryAnd vs 0 = ((aggregateAnd vs tNormProduct : ℚ) : ℝ) ∧
      compensatoryAnd vs 1 = ((vs.sum / vs.length : ℚ) : ℝ) := by
    intro vs hvs
    have hlen : ¬ vs.length = 0 := by
      simpa [List.length_eq_zero] using hvs
    have c1 : ((1 - (0 : ℚ) : ℚ) : ℝ) = 1 := by norm_num
    have c0 : (((0 : ℚ)) : ℝ) = 0 := by norm_num
    have c1b : ((1 - (1 : ℚ) : ℚ) : ℝ) = 0 := by norm_num
    have c0b : (((1 : ℚ)) : ℝ) = 1 := by norm_num
    constructor
    · unfold compensatoryAnd
      rw [if_neg hlen, c1, c0, Real.rpow_one, Real.rpow_zero, mul_one]
    · unfold compensatoryAnd
      rw [if_neg hlen, c1b, c0b, Real.rpow_one, Real.rpow_zero, one_mul]
  refine ⟨key values h, ?_, ?_⟩
  · rw [(key [(0.8 : ℚ), 0.8] (List.cons_ne_nil _ _)).1]
    norm_num [aggregateAnd, tNormProduct]
  · rw [(key [(0.8 : ℚ), 0.8] (List.cons_ne_nil _ _)).2]
    norm_num

/-- C8 (witness): the theorem applied at the concrete list `[0.8, 0.8]`. -/
theorem compensatoryAnd_gamma_extremes_witness :
    ([(0.8 : ℚ), 0.8] ≠ []) ∧
    compensatoryAnd [(0.8 : ℚ), 0.8] 0 = ((0.64 : ℚ) : ℝ) ∧
    compensatoryAnd [(0.8 : ℚ), 0.8] 1 = ((0.8 : ℚ) : ℝ) :=
  ⟨List.cons_ne_nil _ _,
    (compensatoryAnd_gamma_extremes [(0.8 : ℚ), 0.8] (List.cons_ne_nil _ _)).2⟩

-- ============================================================================
-- textMatching.ts : Levenshtein distance and string similarity
-- ============================================================================

/-- Drop leading JavaScript whitespace characters, the first half of
`String.prototype.trim`. -/
def trimLeadingWs : List Char → List Char
  | [] => []
  | c :: cs => if c.isWhitespace then trimLeadingWs cs else c :: cs

/-- Model of `String.prototype.trim` on the character list of a string:
drop leading whitespace, then (via reversal) trailing whitespace. -/
def jsTrim (cs : List Char) : List Char :=
  ((trimLeadingWs ((trimLeadingWs cs).reverse)).reverse)

/-- Model of `str.toLowerCase().trim()`: the character list of the
lower-cased, trimmed string. -/
def toLowerTrim (s : String) : List Char :=
  jsTrim (s.data.map Char.toLower)

/-- The dynamic-programming table of `levenshteinDistance`: `levD s t i j` is
`dp[i][j]` for the length-`i` prefix of `s` and the length-`j` prefix of `t`,
following the loop of the source (`dp[i][0] = i`, `dp[0][j] = j`, inner cell
from the three neighbours). -/
def levD (s t : List Char) : ℕ → ℕ → ℕ
  | i, 0 => i
  | 0, j + 1 => j + 1
  | i + 1, j + 1 =>
    if s[i]? = t[j]? then levD s t i j
    else 1 + min (levD s t i (j + 1)) (min (levD s t (i + 1) j) (levD s t i j))
termination_by i j => i + j

/-- `levenshteinDistance(str1, str2)`, on the character-list representation of
the (already normalised) strings. -/
def levenshteinDistance (str1 str2 : List Char) : ℕ :=
  levD str1 str2 str1.length str2.length

/-- Similarity between two strings in `[0,1]`: both arguments are lower-cased
and trimmed; identical normalisations give 1, an empty normalisation gives 0,
otherwise `1 - distance / maxLength`. -/
def calculateStringSimilarity (str1 str2 : String) : ℚ :=
  let s1 := toLowerTrim str1
  let s2 := toLowerTrim str2
  if s1 = s2 then 1
  else if s1.length = 0 ∨ s2.length = 0 then 0
  else 1 - (levenshteinDistance s1 s2 : ℚ) / (max s1.length s2.length : ℚ)

theorem levD_le_max (s t : List Char) :
    ∀ n i j, i + j ≤ n → levD s t i j ≤ max i j := by
  intro n
  induction n with
  | zero =>
    intro i j h
    have hi : i = 0 := by omega
    have hj : j = 0 := by omega
    subst hi; subst hj
    simp [levD]
  | succ n ih =>
    intro i j h
    match i, j with
    | i, 0 => simp [levD]
    | 0, j + 1 => simp [levD]
    | i + 1, j + 1 =>
      rw [levD]
      have hs : max (i + 1) (j + 1) = max i j + 1 := by omega
      have h3 : levD s t i j ≤ max i j := ih i j (by omega)
      split
      · exact le_trans h3 (by rw [hs]; exact Nat.le_succ _)
      · have hmin : min (levD s t i (j + 1)) (min (levD s t (i + 1) j) (levD s t i j)) ≤
            levD s t i j := le_trans (min_le_right _ _) (min_le_right _ _)
        rw [hs]
        have hc : min (levD s t i (j + 1)) (min (levD s t (i + 1) j) (levD s t i j)) ≤
            max i j := le_trans hmin h3
        linarith [hc]

theorem levD_comm (s t : List Char) :
    ∀ n i j, i + j ≤ n → levD s t i j = levD t s j i := by
  intro n
  induction n with
  | zero =>
    intro i j h
    have hi : i = 0 := by omega
    have hj : j = 0 := by omega
    subst hi; subst hj
    simp [levD]
  | succ n ih =>
    intro i j h
    match i, j with
    | i, 0 =>
      match i with
      | 0 => simp [levD]
      | i + 1 => rw [levD, levD]
    | 0, j + 1 => rw [levD, levD]
    | i + 1, j + 1 =>
      rw [levD, levD]
      by_cases hc : s[i]? = t[j]?
      · rw [if_pos hc, if_pos hc.symm]
        exact ih i j (by omega)
      · rw [if_neg hc, if_neg (fun hh => hc hh.symm)]
        rw [ih i (j + 1) (by omega), ih (i + 1) j (by omega), ih i j (by omega)]
        rw [min_left_comm]

theorem levenshteinDistance_le (s t : List Char) :
    levenshteinDistance s t ≤ max s.length t.length :=
  levD_le_max s t (s.length + t.length) s.length t.length le_rfl

theorem levenshteinDistance_comm (s t : List Char) :
    levenshteinDistance s t = levenshteinDistance t s :=
  levD_comm s t (s.length + t.length) s.length t.length le_rfl

-- ============================================================================
-- C6 : properties of calculateStringSimilarity
-- ============================================================================

/-- C6 (counterexample): on two empty strings the similarity is 1, not 0 as
claimed (both strings normalise to the same empty string, and the
identical-strings branch wins before the empty-string branch is reached). -/
theorem calculateStringSimilarity_empty_empty :
    calculateStringSimilarity "" "" = 1 ∧ calculateStringSimilarity "" "" ≠ 0 := by
  constructor
  · simp [calculateStringSimilarity]
  · simp [calculateStringSimilarity]

/-- C6 (amended): `calculateStringSimilarity` is in `[0,1]`, symmetric, 1 on
identical strings, and 0 whenever either string is empty — except when the two
strings have the same lower-cased trimmed normalisation (in particular two
empty strings), in which case it is 1. -/
theorem calculateStringSimilarity_props (s t : String) :
    (0 ≤ calculateStringSimilarity s t ∧ calculateStringSimilarity s t ≤ 1) ∧
    calculateStringSimilarity s t = calculateStringSimilarity t s ∧
    (s = t → calculateStringSimilarity s t = 1) ∧
    ((s = "" ∨ t = "") → toLowerTrim s ≠ toLowerTrim t →
      calculateStringSimilarity s t = 0) := by
  refine ⟨?_, ?_, ?_, ?_⟩
  · show (0 ≤ calculateStringSimilarity s t ∧ calculateStringSimilarity s t ≤ 1)
    unfold calculateStringSimilarity
    by_cases h1 : toLowerTrim s = toLowerTrim t
    · simp only [h1, if_pos rfl]
      norm_num
    · simp only [if_neg h1]
      by_cases h2 : (toLowerTrim s).length = 0 ∨ (toLowerTrim t).length = 0
      · simp only [if_pos h2]
        norm_num
      · simp only [if_neg h2]
        push_neg at h2
        have hm : 0 < max (toLowerTrim s).length (toLowerTrim t).length := by
          have := h2.1
          omega
        have hmq : (0 : ℚ) < (max (toLowerTrim s).length (toLowerTrim t).length : ℚ) := by
          exact_mod_cast hm
        have hd : (levenshteinDistance (toLowerTrim s) (toLowerTrim t) : ℚ) ≤
            (max (toLowerTrim s).length (toLowerTrim t).length : ℚ) := by
          exact_mod_cast levenshteinDistance_le _ _
        constructor
        · have : (levenshteinDistance (toLowerTrim s) (toLowerTrim t) : ℚ) /
              (max (toLowerTrim s).length (toLowerTrim t).length : ℚ) ≤ 1 :=
            (div_le_one hmq).mpr hd
          linarith
        · have : 0 ≤ (levenshteinDistance (toLowerTrim s) (toLowerTrim t) : ℚ) /
              (max (toLowerTrim s).length (toLowerTrim t).length : ℚ) := by positivity
          linarith
  · simp only [calculateStringSimilarity]
    by_cases h1 : toLowerTrim s = toLowerTrim t
    · rw [if_pos h1, if_pos h1.symm]
    · have h1s : ¬ toLowerTrim t = toLowerTrim s := fun hh => h1 hh.symm
      rw [if_neg h1, if_neg h1s]
      by_cases h2 : (toLowerTrim s).length = 0 ∨ (toLowerTrim t).length = 0
      · have h2s : (toLowerTrim t).length = 0 ∨ (toLowerTrim s).length = 0 := h2.symm
        rw [if_pos h2, if_pos h2s]
      · have h2s : ¬ ((toLowerTrim t).length = 0 ∨ (toLowerTrim s).length = 0) :=
          fun hh => h2 hh.symm
        rw [if_neg h2, if_neg h2s]
        rw [levenshteinDistance_comm, max_comm]
  · intro hst
    subst hst
    simp [calculateStringSimilarity]
  · intro hempty hne
    simp only [calculateStringSimilarity]
    rw [if_neg hne]
    have hzero : (toLowerTrim s).length = 0 ∨ (toLowerTrim t).length = 0 := by
      rcases hempty with he | he
      · left
        rw [he]
        decide
      · right
        rw [he]
        decide
    rw [if_pos hzero]

/-- C6 (witness): the amended properties applied at the concrete strings
`""`, `"a"` (empty-string branch) and `"a"`, `"a"` (identical branch). -/
theorem calculateStringSimilarity_props_witness :
    (("" : String) = "" ∨ ("a" : String) = "") ∧
    toLowerTrim "" ≠ toLowerTrim "a" ∧
    calculateStringSimilarity "" "a" = 0 ∧
    calculateStringSimilarity "a" "a" = 1 :=
  ⟨Or.inl rfl, by decide,
    (calculateStringSimilarity_props "" "a").2.2.2 (Or.inl rfl) (by decide),
    (calculateStringSimilarity_props "a" "a").2.2.1 rfl⟩

-- ============================================================================
-- membershipFunctions.ts (not among the provided sources) : shapes used here
-- ============================================================================

/-- Modelled from the spec: the file `membershipFunctions.ts` is missing from
the provided sources (only its importers are present); spec section 4.1 defines
`triangular(x,a,b,c)` as 0 outside `[a,c]`, a linear rise on `a→b` and a linear
fall on `b→c` with peak 1 at `b`. -/
def triangular (x a b c : ℚ) : ℚ :=
  if x ≤ a ∨ c ≤ x then 0
  else if x ≤ b then (x - a) / (b - a)
  else (c - x) / (c - b)

/-- Modelled from the spec: `membershipFunctions.ts` is missing from the
provided sources; spec section 4.1 defines `leftShoulder(x,a,b)` as 1 for
`x ≤ a`, a linear fall to 0 at `b`, and 0 beyond. -/
def leftShoulder (x a b : ℚ) : ℚ :=
  if x ≤ a then 1
  else if b ≤ x then 0
  else (b - x) / (b - a)

/-- Modelled from the spec: `membershipFunctions.ts` is missing from the
provided sources; spec section 4.1 defines `rightShoulder(x,a,b)` as 0 for
`x ≤ a`, a linear rise to 1 at `b`, and 1 beyond. -/
def rightShoulder (x a b : ℚ) : ℚ :=
  if x ≤ a then 0
  else if b ≤ x then 1
  else (x - a) / (b - a)

-- ============================================================================
-- fuzzySets.ts : fuzzy sets, variables, fuzzification
-- ============================================================================

/-- A named fuzzy set with a membership function and an informational domain. -/
structure FuzzySet where
  name : String
  membershipFunction : ℚ → ℚ
  domain : ℚ × ℚ

/-- A named fuzzy variable: a domain and a list of fuzzy sets. -/
structure FuzzyVariable where
  name : String
  domain : ℚ × ℚ
  sets : List FuzzySet

/-- JavaScript `Map` read with default, `map.get(k) ?? 0`.  Maps are modelled
as association lists in insertion order with distinct keys. -/
def lookupD (m : List (String × ℚ)) (k : String) : ℚ :=
  (m.lookup k).getD 0

/-- `fuzzify(value, variable)`: the membership degree of the value in every
set of the variable, keyed by set name, in set order. -/
def fuzzify (value : ℚ) (fv : FuzzyVariable) : List (String × ℚ) :=
  fv.sets.map (fun s => (s.name, s.membershipFunction value))

/-- The `similarity` fuzzy variable of `fuzzySets.ts` with its five sets. -/
def similaritySets : List FuzzySet :=
  [⟨"no_match", fun x => leftShoulder x 0.15 0.3, (0, 1)⟩,
   ⟨"weak_match", fun x => triangular x 0.2 0.35 0.5, (0, 1)⟩,
   ⟨"partial_match", fun x => triangular x 0.4 0.55 0.7, (0, 1)⟩,
   ⟨"strong_match", fun x => triangular x 0.6 0.75 0.9, (0, 1)⟩,
   ⟨"exact_match", fun x => rightShoulder x 0.8 0.95, (0, 1)⟩]

/-- The `similarity` variable over domain `[0, 1]`. -/
def similarityVariable : FuzzyVariable :=
  ⟨"similarity", (0, 1), similaritySets⟩

-- ============================================================================
-- defuzzification.ts : standalone defuzzifiers and set centers
-- ============================================================================

/-- Standalone centroid defuzzification over a membership map: aggregate the
clipped set memberships at each of `resolution + 1` sample points and take
the center of gravity; the all-zero profile falls back to the midpoint
`(min + max) / 2` of the domain. -/
def defuzzifyCentroid (memberships : List (String × ℚ)) (fv : FuzzyVariable)
    (resolution : ℕ) : ℚ :=
  let mn := fv.domain.1
  let mx := fv.domain.2
  let step := (mx - mn) / (resolution : ℚ)
  let p := (List.range (resolution + 1)).foldl
    (fun (acc : ℚ × ℚ) i =>
      let x := mn + (i : ℚ) * step
      let aggregatedMembership := fv.sets.foldl
        (fun agg s =>
          let setMembership := lookupD memberships s.name
          if setMembership > 0 then max agg (min setMembership (s.membershipFunction x))
          else agg) 0
      (acc.1 + x * aggregatedMembership, acc.2 + aggregatedMembership)) (0, 0)
  if p.2 = 0 then (mn + mx) / 2 else p.1 / p.2

/-- Weighted-average defuzzification: `Σ wi·ci / Σ wi` over entries of the
membership map with positive weight, 0 when the denominator is 0. -/
def defuzzifyWeightedAverage (memberships : List (String × ℚ))
    (setCenters : List (String × ℚ)) : ℚ :=
  let p := memberships.foldl
    (fun (acc : ℚ × ℚ) e =>
      if e.2 > 0 then (acc.1 + e.2 * lookupD setCenters e.1, acc.2 + e.2) else acc)
    (0, 0)
  if p.2 = 0 then 0 else p.1 / p.2

/-- The predefined relevance-set centers of `defuzzification.ts`. -/
def RELEVANCE_CENTERS : List (String × ℚ) :=
  [("irrelevant", 0.1), ("marginally_relevant", 0.35), ("relevant", 0.55),
   ("highly_relevant", 0.75), ("perfectly_relevant", 0.9)]

-- ============================================================================
-- linguisticQuantifiers.ts : relative quantifiers and getBestQuantifier
-- ============================================================================

/-- The `absolute | relative` union of `linguisticQuantifiers.ts`. -/
inductive QuantifierType where
  | absolute
  | relative

/-- A linguistic quantifier: a fuzzy set over proportions in `[0, 1]`. -/
structure LinguisticQuantifier where
  name : String
  membershipFunction : ℚ → ℚ
  type : QuantifierType
  isMonotonic : Option Bool

/-- The nine standard relative quantifiers of `linguisticQuantifiers.ts`. -/
def relativeQuantifiers : List LinguisticQuantifier :=
  [⟨"none", fun x => leftShoulder x 0 0.05, .relative, some false⟩,
   ⟨"almost_none", fun x => triangular x 0 0.05 0.15, .relative, some false⟩,
   ⟨"few", fun x => triangular x 0.05 0.15 0.35, .relative, some false⟩,
   ⟨"some", fun x => triangular x 0.2 0.35 0.5, .relative, none⟩,
   ⟨"about_half", fun x => triangular x 0.35 0.5 0.65, .relative, none⟩,
   ⟨"many", fun x => triangular x 0.5 0.65 0.8, .relative, some true⟩,
   ⟨"most", fun x => triangular x 0.65 0.8 0.95, .relative, some true⟩,
   ⟨"almost_all", fun x => triangular x 0.85 0.95 1.0, .relative, some true⟩,
   ⟨"all", fun x => rightShoulder x 0.95 1.0, .relative, some true⟩]

/-- `getBestQuantifier(proportion)`: the quantifier with the strictly highest
membership at the proportion, defaulting to `("some", 0)`. -/
def getBestQuantifier (proportion : ℚ) : String × ℚ :=
  relativeQuantifiers.foldl
    (fun best q =>
      let membership := q.membershipFunction proportion
      if membership > best.2 then (q.name, membership) else best)
    ("some", 0)

-- ============================================================================
-- tvls.ts : the LinguisticSummary record
-- ============================================================================

/-- A generated linguistic summary with its truth value and support. -/
structure LinguisticSummary where
  quantifier : String
  subject : String
  summarizer : String
  truthValue : ℚ
  support : ℚ
  fullStatement : String

-- ============================================================================
-- fuzzyMetrics.ts : fuzzy confusion matrix
-- ============================================================================

/-- Continuous-valued confusion matrix over returned / expected result sets. -/
structure FuzzyConfusionMatrix where
  fuzzyTP : ℚ
  fuzzyFP : ℚ
  fuzzyFN : ℚ
  totalReturned : ℚ
  totalExpected : ℚ

/-- The inner loop of `calculateFuzzyConfusionMatrix`: maximal similarity of a
returned title against the expected names (`Math.max` fold from 0). -/
def maxSimilarityTo (title : String) (expectedNames : List String) : ℚ :=
  expectedNames.foldl (fun m expected => max m (calculateStringSimilarity title expected)) 0

/-- The false-negative loop bound: maximal similarity achieved for an expected
name by any returned title (`Math.max` fold from 0). -/
def maxSimilarityFrom (returnedTitles : List String) (expected : String) : ℚ :=
  returnedTitles.foldl (fun m title => max m (calculateStringSimilarity title expected)) 0

/-- Relevance membership of a returned title: fuzzify its best similarity
against the similarity variable and take the weighted average against the
relevance-category centers. -/
def relevanceMembershipOf (title : String) (expectedNames : List String) : ℚ :=
  let similarityMemberships := fuzzify (maxSimilarityTo title expectedNames) similarityVariable
  defuzzifyWeightedAverage
    [("highly_relevant", lookupD similarityMemberships "strong_match"),
     ("perfectly_relevant", lookupD similarityMemberships "exact_match"),
     ("relevant", lookupD similarityMemberships "partial_match"),
     ("marginally_relevant", lookupD similarityMemberships "weak_match"),
     ("irrelevant", lookupD similarityMemberships "no_match")]
    RELEVANCE_CENTERS

/-- `calculateFuzzyConfusionMatrix`: every returned item contributes its
relevance membership `r` to `fuzzyTP` and `1 - r` to `fuzzyFP`; every expected
name contributes `1 - bestSimilarity` to `fuzzyFN`. -/
def calculateFuzzyConfusionMatrix (returnedTitles expectedNames : List String) :
    FuzzyConfusionMatrix :=
  let tpfp := returnedTitles.foldl
    (fun (acc : ℚ × ℚ) title =>
      let relevanceMembership := relevanceMembershipOf title expectedNames
      (acc.1 + relevanceMembership, acc.2 + (1 - relevanceMembership)))
    (0, 0)
  let fuzzyFN := expectedNames.foldl
    (fun acc expected => acc + (1 - maxSimilarityFrom returnedTitles expected)) 0
  ⟨tpfp.1, tpfp.2, fuzzyFN, (returnedTitles.length : ℚ), (expectedNames.length : ℚ)⟩

theorem confusion_tpfp_fold (expectedNames : List String) :
    ∀ (l : List String) (a b : ℚ),
      (l.foldl
        (fun (acc : ℚ × ℚ) title =>
          (acc.1 + relevanceMembershipOf title expectedNames,
           acc.2 + (1 - relevanceMembershipOf title expectedNames)))
        (a, b)).1 +
      (l.foldl
        (fun (acc : ℚ × ℚ) title =>
          (acc.1 + relevanceMembershipOf title expectedNames,
           acc.2 + (1 - relevanceMembershipOf title expectedNames)))
        (a, b)).2 = a + b + l.length := by
  intro l
  induction l with
  | nil => intro a b; simp
  | cons x xs ih =>
    intro a b
    simp only [List.foldl_cons]
    rw [ih]
    push_cast [List.length_cons]
    ring

-- ============================================================================
-- C9 : confusion-matrix invariants
-- ============================================================================

/-- C9: the fuzzy confusion matrix satisfies `fuzzyTP + fuzzyFP =
totalReturned` exactly, and `totalReturned` / `totalExpected` equal the lengths
of the two input lists. -/
theorem fuzzyConfusionMatrix_invariant (returnedTitles expectedNames : List String) :
    (calculateFuzzyConfusionMatrix returnedTitles expectedNames).fuzzyTP +
      (calculateFuzzyConfusionMatrix returnedTitles expectedNames).fuzzyFP =
      (calculateFuzzyConfusionMatrix returnedTitles expectedNames).totalReturned ∧
    (calculateFuzzyConfusionMatrix returnedTitles expectedNames).totalReturned =
      (returnedTitles.length : ℚ) ∧
    (calculateFuzzyConfusionMatrix returnedTitles expectedNames).totalExpected =
      (expectedNames.length : ℚ) := by
  refine ⟨?_, rfl, rfl⟩
  show (calculateFuzzyConfusionMatrix returnedTitles expectedNames).fuzzyTP +
      (calculateFuzzyConfusionMatrix returnedTitles expectedNames).fuzzyFP =
      (calculateFuzzyConfusionMatrix returnedTitles expectedNames).totalReturned
  simp only [calculateFuzzyConfusionMatrix]
  rw [confusion_tpfp_fold expectedNames returnedTitles 0 0]
  ring

-- ============================================================================
-- fuzzyMetrics.ts : calculateFuzzyMetrics
-- ============================================================================

/-- Per-returned-item match record of the metrics result. -/
structure MatchDetail where
  returned : String
  bestMatch : Option String
  similarity : ℚ
  relevanceMembership : ℚ

/-- The result record of `calculateFuzzyMetrics`. -/
structure FuzzyMetricsResult where
  fuzzyPrecision : ℚ
  fuzzyRecall : ℚ
  fuzzyF1 : ℚ
  confusionMatrix : FuzzyConfusionMatrix
  truthValueSummary : LinguisticSummary
  matchDetails : List MatchDetail

/-- `name.replace(/_/g, ' ')`. -/
def formatQuantifierName (name : String) : String :=
  ⟨name.data.map (fun c => if c = '_' then ' ' else c)⟩

/-- Model of `Number.prototype.toFixed(1)` for the nonnegative values that
occur here: round to the nearest tenth and print with one decimal digit. -/
def toFixed1 (q : ℚ) : String :=
  let n : ℤ := round (q * 10)
  toString (n / 10) ++ "." ++ toString (n % 10)

/-- `calculateFuzzyMetrics(returnedTitles, expectedNames)`.  The two edge
branches of the source come first (no expected names, then no returned
titles); the main branch averages each returned item's best similarity for the
precision, each expected name's best achieved similarity for the recall, and
takes the harmonic mean for F1.  The local `relevance` computed with
`compensatoryAnd` in the source loop is dead (never read) and is omitted. -/
def calculateFuzzyMetrics (returnedTitles expectedNames : List String) :
    FuzzyMetricsResult :=
  if expectedNames.length = 0 then
    { fuzzyPrecision := 0, fuzzyRecall := 0, fuzzyF1 := 0,
      confusionMatrix :=
        ⟨0, (returnedTitles.length : ℚ), 0, (returnedTitles.length : ℚ), 0⟩,
      truthValueSummary :=
        ⟨"none", "results", "measurably relevant", 0, 0,
         "no expected results defined for comparison"⟩,
      matchDetails := [] }
  else if returnedTitles.length = 0 then
    { fuzzyPrecision := 0, fuzzyRecall := 0, fuzzyF1 := 0,
      confusionMatrix :=
        ⟨0, 0, (expectedNames.length : ℚ), 0, (expectedNames.length : ℚ)⟩,
      truthValueSummary :=
        ⟨"none", "results", "relevant", 1, 0,
         "none of the results are relevant (no results returned)"⟩,
      matchDetails := [] }
  else
    let matchDetails := returnedTitles.map (fun title =>
      let best := expectedNames.foldl
        (fun (acc : ℚ × Option String) expected =>
          let similarity := calculateStringSimilarity title expected
          if similarity > acc.1 then (similarity, some expected) else acc)
        (0, none)
      (⟨title, best.2, best.1, best.1⟩ : MatchDetail))
    let relevanceMemberships := matchDetails.map (fun d => d.relevanceMembership)
    let fuzzyPrecision := relevanceMemberships.sum / (relevanceMemberships.length : ℚ)
    let recallSum := expectedNames.foldl
      (fun acc expected => acc + maxSimilarityFrom returnedTitles expected) 0
    let fuzzyRecall := recallSum / (expectedNames.length : ℚ)
    let fuzzyF1 :=
      if fuzzyPrecision + fuzzyRecall > 0
      then 2 * fuzzyPrecision * fuzzyRecall / (fuzzyPrecision + fuzzyRecall)
      else 0
    let bq := getBestQuantifier fuzzyPrecision
    { fuzzyPrecision := fuzzyPrecision, fuzzyRecall := fuzzyRecall, fuzzyF1 := fuzzyF1,
      confusionMatrix := calculateFuzzyConfusionMatrix returnedTitles expectedNames,
      truthValueSummary :=
        ⟨bq.1, "results", "relevant", bq.2, fuzzyPrecision,
         formatQuantifierName bq.1 ++ " of the results are relevant (support: " ++
           toFixed1 (fuzzyPrecision * 100) ++ "%)"⟩,
      matchDetails := matchDetails }

-- ============================================================================
-- C4 : edge-case policies of calculateFuzzyMetrics
-- ============================================================================

/-- C4: with no expected names all three metrics are 0 and the summary notes
that the comparison is undefined; with no returned titles but expected names
all three metrics are 0 while the summary's truth value is 1. -/
theorem calculateFuzzyMetrics_edge_cases (returnedTitles expectedNames : List String) :
    (returnedTitles ≠ [] →
      (calculateFuzzyMetrics returnedTitles []).fuzzyPrecision = 0 ∧
      (calculateFuzzyMetrics returnedTitles []).fuzzyRecall = 0 ∧
      (calculateFuzzyMetrics returnedTitles []).fuzzyF1 = 0 ∧
      (calculateFuzzyMetrics returnedTitles []).truthValueSummary.fullStatement =
        "no expected results defined for comparison") ∧
    (expectedNames ≠ [] →
      (calculateFuzzyMetrics [] expectedNames).fuzzyPrecision = 0 ∧
      (calculateFuzzyMetrics [] expectedNames).fuzzyRecall = 0 ∧
      (calculateFuzzyMetrics [] expectedNames).fuzzyF1 = 0 ∧
      (calculateFuzzyMetrics [] expectedNames).truthValueSummary.truthValue = 1) := by
  constructor
  · intro _
    simp [calculateFuzzyMetrics]
  · intro he
    have hlen : ¬ expectedNames.length = 0 := by
      simpa [List.length_eq_zero] using he
    simp [calculateFuzzyMetrics, hlen]

/-- C4 (witness): the two edge cases at the concrete inputs
`(["a"], [])` and `([], ["b"])`. -/
theorem calculateFuzzyMetrics_edge_cases_witness :
    (["a"] ≠ ([] : List String)) ∧ (["b"] ≠ ([] : List String)) ∧
    (calculateFuzzyMetrics ["a"] []).fuzzyPrecision = 0 ∧
    (calculateFuzzyMetrics ["a"] []).truthValueSummary.fullStatement =
      "no expected results defined for comparison" ∧
    (calculateFuzzyMetrics [] ["b"]).fuzzyF1 = 0 ∧
    (calculateFuzzyMetrics [] ["b"]).truthValueSummary.truthValue = 1 := by
  have h := calculateFuzzyMetrics_edge_cases ["a"] ["b"]
  have h1 := h.1 (List.cons_ne_nil _ _)
  have h2 := h.2 (List.cons_ne_nil _ _)
  exact ⟨List.cons_ne_nil _ _, List.cons_ne_nil _ _,
    h1.1, h1.2.2.2, h2.2.2.1, h2.2.2.2⟩

-- ============================================================================
-- C5 : precision / recall / F1 formulas (spec-side definitions)
-- ============================================================================

/-- Spec-side definition (refinement target, written from the spec's words):
an item's best similarity to any of the given names. -/
def specBestSimilarity (title : String) (names : List String) : ℚ :=
  (names.map (calculateStringSimilarity title)).foldr max 0

/-- Spec-side definition: fuzzy precision is the average, over returned items,
of each item's best similarity to any expected name. -/
def specFuzzyPrecision (returned expected : List String) : ℚ :=
  (returned.map (fun t => specBestSimilarity t expected)).sum / (returned.length : ℚ)

/-- Spec-side definition: fuzzy recall is the average, over expected names, of
the best similarity achieved by any returned item. -/
def specFuzzyRecall (returned expected : List String) : ℚ :=
  (expected.map (fun e =>
    (returned.map (fun t => calculateStringSimilarity t e)).foldr max 0)).sum /
    (expected.length : ℚ)

theorem foldr_max_swap (l : List ℚ) :
    ∀ a b : ℚ, l.foldr max (max a b) = max b (l.foldr max a) := by
  induction l with
  | nil => intro a b; exact max_comm a b
  | cons y ys ih =>
    intro a b
    simp only [List.foldr_cons]
    rw [ih, max_left_comm]

theorem foldl_max_eq_foldr {α : Type} (f : α → ℚ) (l : List α) :
    ∀ a : ℚ, l.foldl (fun m x => max m (f x)) a = (l.map f).foldr max a := by
  induction l with
  | nil => intro a; rfl
  | cons x xs ih =>
    intro a
    simp only [List.foldl_cons, List.map_cons, List.foldr_cons]
    rw [ih (max a (f x)), foldr_max_swap]

theorem foldl_add_eq_sum {α : Type} (f : α → ℚ) (l : List α) :
    ∀ a : ℚ, l.foldl (fun acc e => acc + f e) a = a + (l.map f).sum := by
  induction l with
  | nil => intro a; simp
  | cons x xs ih =>
    intro a
    simp only [List.foldl_cons, List.map_cons, List.sum_cons]
    rw [ih (a + f x)]
    ring

theorem best_pair_fst (title : String) (l : List String) :
    ∀ (acc : ℚ × Option String),
      (l.foldl
        (fun acc expected =>
          if calculateStringSimilarity title expected > acc.1
          then (calculateStringSimilarity title expected, some expected) else acc)
        acc).1 =
      l.foldl (fun m expected => max m (calculateStringSimilarity title expected)) acc.1 := by
  induction l with
  | nil => intro acc; rfl
  | cons x xs ih =>
    intro acc
    simp only [List.foldl_cons]
    by_cases hc : calculateStringSimilarity title x > acc.1
    · rw [if_pos hc, ih]
      dsimp only
      rw [max_eq_right (le_of_lt hc)]
    · rw [if_neg hc, ih]
      rw [max_eq_left (le_of_not_lt hc)]

theorem foldr_max_nonneg (l : List ℚ) : 0 ≤ l.foldr max 0 := by
  induction l with
  | nil => exact le_refl 0
  | cons x xs ih =>
    simp only [List.foldr_cons]
    exact le_trans ih (le_max_right _ _)

theorem specFuzzyPrecision_nonneg (returned expected : List String) :
    0 ≤ specFuzzyPrecision returned expected := by
  unfold specFuzzyPrecision
  refine div_nonneg (List.sum_nonneg ?_) (Nat.cast_nonneg _)
  intro x hx
  obtain ⟨t, _, rfl⟩ := List.mem_map.mp hx
  exact foldr_max_nonneg _

theorem specFuzzyRecall_nonneg (returned expected : List String) :
    0 ≤ specFuzzyRecall returned expected := by
  unfold specFuzzyRecall
  refine div_nonneg (List.sum_nonneg ?_) (Nat.cast_nonneg _)
  intro x hx
  obtain ⟨t, _, rfl⟩ := List.mem_map.mp hx
  exact foldr_max_nonneg _

/-- C5: on non-empty inputs, `calculateFuzzyMetrics` returns exactly the
spec's fuzzy precision (average best similarity over returned items), fuzzy
recall (average best achieved similarity over expected names), and F1 as the
harmonic mean `2PR/(P+R)` with 0 when both P and R are 0. -/
theorem calculateFuzzyMetrics_formulas (returned expected : List String)
    (hr : returned ≠ []) (he : expected ≠ []) :
    (calculateFuzzyMetrics returned expected).fuzzyPrecision =
      specFuzzyPrecision returned expected ∧
    (calculateFuzzyMetrics returned expected).fuzzyRecall =
      specFuzzyRecall returned expected ∧
    (specFuzzyPrecision returned expected = 0 ∧ specFuzzyRecall returned expected = 0 →
      (calculateFuzzyMetrics returned expected).fuzzyF1 = 0) ∧
    (¬ (specFuzzyPrecision returned expected = 0 ∧ specFuzzyRecall returned expected = 0) →
      (calculateFuzzyMetrics returned expected).fuzzyF1 =
        2 * specFuzzyPrecision returned expected * specFuzzyRecall returned expected /
          (specFuzzyPrecision returned expected + specFuzzyRecall returned expected)) := by
  have hrl : ¬ returned.length = 0 := by simpa [List.length_eq_zero] using hr
  have hel : ¬ expected.length = 0 := by simpa [List.length_eq_zero] using he
  have hfun : (fun title =>
      (expected.foldl
        (fun (acc : ℚ × Option String) e =>
          if calculateStringSimilarity title e > acc.1
          then (calculateStringSimilarity title e, some e) else acc)
        ((0 : ℚ), (none : Option String))).1) =
      fun title => specBestSimilarity title expected := by
    funext title
    rw [best_pair_fst]
    rw [foldl_max_eq_foldr]
    rfl
  have hg : maxSimilarityFrom returned =
      fun e => (returned.map (fun t => calculateStringSimilarity t e)).foldr max 0 := by
    funext e
    unfold maxSimilarityFrom
    rw [foldl_max_eq_foldr]
  have hP : (calculateFuzzyMetrics returned expected).fuzzyPrecision =
      specFuzzyPrecision returned expected := by
    simp only [calculateFuzzyMetrics, if_neg hel, if_neg hrl]
    rw [List.map_map]
    simp only [Function.comp_def]
    rw [hfun, List.length_map]
    rfl
  have hR : (calculateFuzzyMetrics returned expected).fuzzyRecall =
      specFuzzyRecall returned expected := by
    simp only [calculateFuzzyMetrics, if_neg hel, if_neg hrl]
    rw [foldl_add_eq_sum, zero_add, hg]
    rfl
  have hF : (calculateFuzzyMetrics returned expected).fuzzyF1 =
      (if specFuzzyPrecision returned expected + specFuzzyRecall returned expected > 0
       then 2 * specFuzzyPrecision returned expected * specFuzzyRecall returned expected /
         (specFuzzyPrecision returned expected + specFuzzyRecall returned expected)
       else 0) := by
    simp only [calculateFuzzyMetrics, if_neg hel, if_neg hrl]
    rw [List.map_map]
    simp only [Function.comp_def]
    rw [hfun, List.length_map, foldl_add_eq_sum, zero_add, hg]
    rfl
  refine ⟨hP, hR, ?_, ?_⟩
  · rintro ⟨hp0, hr0⟩
    rw [hF, hp0, hr0]
    norm_num
  · intro hnot
    have hple := specFuzzyPrecision_nonneg returned expected
    have hrle := specFuzzyRecall_nonneg returned expected
    have hpos : specFuzzyPrecision returned expected + specFuzzyRecall returned expected > 0 := by
      by_cases hp : specFuzzyPrecision returned expected = 0
      · have hrne : specFuzzyRecall returned expected ≠ 0 := fun hh => hnot ⟨hp, hh⟩
        have := lt_of_le_of_ne hrle (Ne.symm hrne)
        linarith
      · have := lt_of_le_of_ne hple (Ne.symm hp)
        linarith
    rw [hF, if_pos hpos]

/-- C5 (witness): the formulas applied at the concrete non-empty inputs
`["jungfraujoch"]` and `["jungfraujoch"]`. -/
theorem calculateFuzzyMetrics_formulas_witness :
    (["jungfraujoch"] ≠ ([] : List String)) ∧
    (calculateFuzzyMetrics ["jungfraujoch"] ["jungfraujoch"]).fuzzyPrecision =
      specFuzzyPrecision ["jungfraujoch"] ["jungfraujoch"] ∧
    (calculateFuzzyMetrics ["jungfraujoch"] ["jungfraujoch"]).fuzzyRecall =
      specFuzzyRecall ["jungfraujoch"] ["jungfraujoch"] :=
  ⟨List.cons_ne_nil _ _,
    (calculateFuzzyMetrics_formulas ["jungfraujoch"] ["jungfraujoch"]
      (List.cons_ne_nil _ _) (List.cons_ne_nil _ _)).1,
    (calculateFuzzyMetrics_formulas ["jungfraujoch"] ["jungfraujoch"]
      (List.cons_ne_nil _ _) (List.cons_ne_nil _ _)).2.1⟩

-- ============================================================================
-- inference.ts : rule and configuration types
-- ============================================================================

/-- The `AND | OR` connective union of a rule. -/
inductive Connective where
  | AND
  | OR

/-- A single antecedent clause `{variable, set, negated?}`. -/
structure FuzzyRuleCondition where
  «variable» : String
  set : String
  negated : Option Bool

/-- A rule consequent `{variable, set}`. -/
structure FuzzyRuleConsequent where
  «variable» : String
  set : String

/-- A fuzzy rule with optional weight (default 1.0) and connective
(default AND). -/
structure FuzzyRule where
  id : String
  antecedent : List FuzzyRuleCondition
  consequent : FuzzyRuleConsequent
  weight : Option ℚ
  connective : Option Connective

/-- The `max | sum | probor` aggregation union of the FIS configuration. -/
inductive AggregationMethod where
  | max
  | sum
  | probor

/-- The `centroid | bisector | mom | lom | som` defuzzification union. -/
inductive DefuzzificationMethod where
  | centroid
  | bisector
  | mom
  | lom
  | som

/-- The FIS configuration record. -/
structure FISConfig where
  tNorm : ℚ → ℚ → ℚ
  tConorm : ℚ → ℚ → ℚ
  implication : ℚ → ℚ → ℚ
  aggregation : AggregationMethod
  defuzzification : DefuzzificationMethod

/-- The default configuration: min T-norm, max T-conorm, Mamdani implication,
max aggregation, centroid defuzzification. -/
def DEFAULT_FIS_CONFIG : FISConfig :=
  ⟨tNormMin, tConormMax, implicationMamdani, .max, .centroid⟩

/-- The state of a `FuzzyInferenceSystem`: the variable registry (a JS `Map`,
modelled as an association list in insertion order with unique keys), the rule
base, and the configuration. -/
structure FuzzyInferenceSystem where
  «variables» : List (String × FuzzyVariable)
  rules : List FuzzyRule
  config : FISConfig

/-- JS `Map.prototype.set`: overwrite the binding in place if the key is
present, append it otherwise. -/
def mapSet {α : Type} (m : List (String × α)) (k : String) (v : α) :
    List (String × α) :=
  if m.any (fun p => p.1 == k) then
    m.map (fun p => if p.1 == k then (k, v) else p)
  else m ++ [(k, v)]

/-- `addVariable`: register a fuzzy variable under its name. -/
def FuzzyInferenceSystem.addVariable (fis : FuzzyInferenceSystem)
    (fv : FuzzyVariable) : FuzzyInferenceSystem :=
  { fis with «variables» := mapSet fis.«variables» fv.name fv }

/-- `fuzzifyInputs`: fuzzify every input whose variable is registered,
skipping unknown variables. -/
def FuzzyInferenceSystem.fuzzifyInputs (fis : FuzzyInferenceSystem)
    (inputs : List (String × ℚ)) : List (String × List (String × ℚ)) :=
  inputs.foldl
    (fun fuzzified p =>
      match fis.«variables».lookup p.1 with
      | some fv => mapSet fuzzified p.1 (fuzzify p.2 fv)
      | none => fuzzified)
    []

/-- `evaluateCondition`: membership of the condition's set for its variable
(0 for an unknown variable), negated when the flag is set. -/
def FuzzyInferenceSystem.evaluateCondition (condition : FuzzyRuleCondition)
    (fuzzifiedInputs : List (String × List (String × ℚ))) : ℚ :=
  match fuzzifiedInputs.lookup condition.«variable» with
  | none => 0
  | some varMemberships =>
    let membership := (varMemberships.lookup condition.set).getD 0
    if condition.negated.getD false then 1 - membership else membership

/-- `evaluateRule`: combine the antecedent memberships through the configured
T-norm (AND) or T-conorm fold from 0 (OR), then multiply by the rule weight
(default 1.0). -/
def FuzzyInferenceSystem.evaluateRule (config : FISConfig) (rule : FuzzyRule)
    (fuzzifiedInputs : List (String × List (String × ℚ))) : ℚ :=
  let conditionValues := rule.antecedent.map
    (fun cond => FuzzyInferenceSystem.evaluateCondition cond fuzzifiedInputs)
  let firingStrength :=
    match rule.connective.getD .AND with
    | .AND => aggregateAnd conditionValues config.tNorm
    | .OR => conditionValues.foldl (fun acc val => config.tConorm acc val) 0
  firingStrength * rule.weight.getD 1

/-- The rule loop of `infer`: every rule whose consequent targets the output
variable is evaluated and collected, in rule-base order. -/
def FuzzyInferenceSystem.selectRuleResults (rules : List FuzzyRule)
    (outputVariableName : String) (eval : FuzzyRule → ℚ) : List (FuzzyRule × ℚ) :=
  match rules with
  | [] => []
  | r :: rs =>
    if r.consequent.«variable» = outputVariableName then
      (r, eval r) :: FuzzyInferenceSystem.selectRuleResults rs outputVariableName eval
    else FuzzyInferenceSystem.selectRuleResults rs outputVariableName eval

/-- The inner loop of `aggregateOutputs` at a single sample point `x`: rules
with firing strength 0 are skipped, the consequent set is looked up by name,
the implication is applied, and the results are combined by the configured
aggregation method. -/
def FuzzyInferenceSystem.aggregateAt (config : FISConfig)
    (ruleResults : List (FuzzyRule × ℚ)) (outputVariable : FuzzyVariable)
    (x : ℚ) : ℚ :=
  ruleResults.foldl
    (fun (cur : ℚ) (rr : FuzzyRule × ℚ) =>
      if rr.2 = 0 then cur
      else
        match outputVariable.sets.find? (fun s => s.name == rr.1.consequent.set) with
        | none => cur
        | some consequentSet =>
          let impliedValue := config.implication rr.2 (consequentSet.membershipFunction x)
          match config.aggregation with
          | .max => max cur impliedValue
          | .sum => min 1 (cur + impliedValue)
          | .probor => cur + impliedValue - cur * impliedValue)
    (0 : ℚ)

/-- `aggregateOutputs`: discretize the output domain at `resolution + 1`
sample points and aggregate the implied rule outputs at each point. -/
def FuzzyInferenceSystem.aggregateOutputs (config : FISConfig)
    (ruleResults : List (FuzzyRule × ℚ)) (outputVariable : FuzzyVariable)
    (resolution : ℕ) : List ℚ :=
  let mn := outputVariable.domain.1
  let mx := outputVariable.domain.2
  let step := (mx - mn) / (resolution : ℚ)
  (List.range (resolution + 1)).map
    (fun (i : ℕ) => FuzzyInferenceSystem.aggregateAt config ruleResults outputVariable
      (mn + (i : ℚ) * step))

/-- The FIS-internal centroid defuzzifier over a discretized profile,
following the index loop of the source; note that the zero-denominator
fallback is `(min + (length - 1) * step) / 2`. -/
def FuzzyInferenceSystem.defuzzifyCentroid (output : List ℚ) (mn step : ℚ) : ℚ :=
  let p := (List.range output.length).foldl
    (fun (acc : ℚ × ℚ) (i : ℕ) =>
      (acc.1 + (mn + (i : ℚ) * step) * output.getD i 0, acc.2 + output.getD i 0))
    (0, 0)
  if p.2 = 0 then (mn + ((output.length : ℚ) - 1) * step) / 2 else p.1 / p.2

/-- The early-returning cumulative-area loop of the bisector defuzzifier. -/
def bisectorLoop (mn step halfArea : ℚ) : List (ℕ × ℚ) → ℚ → Option ℚ
  | [], _ => none
  | iv :: rest, cumulative =>
    let c := cumulative + iv.2 * step
    if halfArea ≤ c then some (mn + (iv.1 : ℚ) * step)
    else bisectorLoop mn step halfArea rest c

/-- The FIS-internal bisector defuzzifier. -/
def FuzzyInferenceSystem.defuzzifyBisector (output : List ℚ) (mn step : ℚ) : ℚ :=
  let totalArea := output.foldl (fun a b => a + b) 0 * step
  match bisectorLoop mn step (totalArea / 2) output.enum 0 with
  | some x => x
  | none => mn + ((output.length : ℚ) - 1) * step / 2

/-- The FIS-internal mean-of-maximum defuzzifier (`Math.max` over the profile
modelled as a fold from 0, which agrees on the nonnegative profiles produced
by `aggregateOutputs`). -/
def FuzzyInferenceSystem.defuzzifyMeanOfMaximum (output : List ℚ) (mn step : ℚ) : ℚ :=
  let maxValue := output.foldr max 0
  if maxValue = 0 then (mn + ((output.length : ℚ) - 1) * step) / 2
  else
    let p := output.enum.foldl
      (fun (acc : ℚ × ℚ) iv =>
        if iv.2 = maxValue then (acc.1 + (mn + (iv.1 : ℚ) * step), acc.2 + 1) else acc)
      (0, 0)
    p.1 / p.2

/-- The FIS-internal largest-of-maximum defuzzifier (backward index scan). -/
def FuzzyInferenceSystem.defuzzifyLargestOfMaximum (output : List ℚ) (mn step : ℚ) : ℚ :=
  let maxValue := output.foldr max 0
  match output.enum.reverse.find? (fun iv => iv.2 == maxValue) with
  | some iv => mn + (iv.1 : ℚ) * step
  | none => mn + ((output.length : ℚ) - 1) * step / 2

/-- The FIS-internal smallest-of-maximum defuzzifier (forward index scan). -/
def FuzzyInferenceSystem.defuzzifySmallestOfMaximum (output : List ℚ) (mn step : ℚ) : ℚ :=
  let maxValue := output.foldr max 0
  match output.enum.find? (fun iv => iv.2 == maxValue) with
  | some iv => mn + (iv.1 : ℚ) * step
  | none => mn + ((output.length : ℚ) - 1) * step / 2

/-- `defuzzify`: dispatch on the configured defuzzification method. -/
def FuzzyInferenceSystem.defuzzify (config : FISConfig) (aggregatedOutput : List ℚ)
    (domain : ℚ × ℚ) : ℚ :=
  let step := (domain.2 - domain.1) / ((aggregatedOutput.length : ℚ) - 1)
  match config.defuzzification with
  | .centroid => FuzzyInferenceSystem.defuzzifyCentroid aggregatedOutput domain.1 step
  | .bisector => FuzzyInferenceSystem.defuzzifyBisector aggregatedOutput domain.1 step
  | .mom => FuzzyInferenceSystem.defuzzifyMeanOfMaximum aggregatedOutput domain.1 step
  | .lom => FuzzyInferenceSystem.defuzzifyLargestOfMaximum aggregatedOutput domain.1 step
  | .som => FuzzyInferenceSystem.defuzzifySmallestOfMaximum aggregatedOutput domain.1 step

/-- `infer(inputs, outputVariableName)`: fuzzify the inputs, throw
(`Except.error`) if the output variable is unregistered, otherwise evaluate
the rules targeting the output variable, aggregate over 100 + 1 sample points,
defuzzify, and return the crisp output with the fired-rule list. -/
def FuzzyInferenceSystem.infer (fis : FuzzyInferenceSystem)
    (inputs : List (String × ℚ)) (outputVariableName : String) :
    Except String (ℚ × List (String × ℚ)) :=
  let fuzzifiedInputs := FuzzyInferenceSystem.fuzzifyInputs fis inputs
  match fis.«variables».lookup outputVariableName with
  | none => .error ("Output variable " ++ outputVariableName ++ " not found")
  | some outputVariable =>
    let ruleResults := FuzzyInferenceSystem.selectRuleResults fis.rules outputVariableName
      (fun rule => FuzzyInferenceSystem.evaluateRule fis.config rule fuzzifiedInputs)
    let firedRules := ruleResults.map (fun p => (p.1.id, p.2))
    let aggregatedOutput := FuzzyInferenceSystem.aggregateOutputs fis.config ruleResults
      outputVariable 100
    let crispOutput := FuzzyInferenceSystem.defuzzify fis.config aggregatedOutput
      outputVariable.domain
    .ok (crispOutput, firedRules)

theorem lookup_append_single {α : Type} (k : String) (v : α) :
    ∀ (m : List (String × α)), m.any (fun p => p.1 == k) = false →
      (m ++ [(k, v)]).lookup k = some v := by
  intro m
  induction m with
  | nil =>
    intro _
    simp [List.lookup]
  | cons p ps ih =>
    intro h
    obtain ⟨a, b⟩ := p
    simp only [List.any_cons, Bool.or_eq_false_iff] at h
    have h1 : (k == a) = false :=
      beq_eq_false_iff_ne.mpr (Ne.symm (beq_eq_false_iff_ne.mp h.1))
    simp only [List.cons_append, List.lookup, h1]
    exact ih h.2

theorem lookup_map_overwrite {α : Type} (k : String) (v : α) :
    ∀ (m : List (String × α)), m.any (fun p => p.1 == k) = true →
      (m.map (fun p => if p.1 == k then (k, v) else p)).lookup k = some v := by
  intro m
  induction m with
  | nil =>
    intro h
    simp at h
  | cons p ps ih =>
    intro h
    obtain ⟨a, b⟩ := p
    by_cases ha : (a == k) = true
    · simp only [List.map_cons]
      rw [if_pos ha]
      simp [List.lookup]
    · have ha' : (a == k) = false := by simpa using ha
      have hka : (k == a) = false :=
        beq_eq_false_iff_ne.mpr (Ne.symm (beq_eq_false_iff_ne.mp ha'))
      simp only [List.map_cons]
      rw [if_neg ha]
      simp only [List.lookup, hka]
      apply ih
      simpa [List.any_cons, ha'] using h

theorem lookup_mapSet_self {α : Type} (m : List (String × α)) (k : String) (v : α) :
    (mapSet m k v).lookup k = some v := by
  unfold mapSet
  by_cases h : m.any (fun p => p.1 == k) = true
  · rw [if_pos h]
    exact lookup_map_overwrite k v m h
  · have h' : m.any (fun p => p.1 == k) = false := Bool.eq_false_iff.mpr h
    rw [if_neg h]
    exact lookup_append_single k v m h'

-- ============================================================================
-- C2 : infer throws exactly for an unregistered output variable
-- ============================================================================

/-- C2: `infer` succeeds exactly when the requested output variable is present
in the variable registry — in every other respect (no rule targeting the
variable, all firing strengths 0, arbitrary inputs) it still returns a crisp
output; and after registering a variable with `addVariable`, inference on it
never throws. -/
theorem infer_ok_iff_registered (fis : FuzzyInferenceSystem)
    (inputs : List (String × ℚ)) (v : String) (fv : FuzzyVariable) :
    ((fis.infer inputs v).isOk = (fis.«variables».lookup v).isSome) ∧
    (((fis.addVariable fv).infer inputs fv.name).isOk = true) := by
  have key : ∀ (g : FuzzyInferenceSystem) (w : String),
      (g.infer inputs w).isOk = (g.«variables».lookup w).isSome := by
    intro g w
    unfold FuzzyInferenceSystem.infer
    cases h : g.«variables».lookup w with
    | none => simp [h, Except.isOk, Except.toBool]
    | some out => simp [h, Except.isOk, Except.toBool]
  refine ⟨key fis v, ?_⟩
  rw [key]
  show ((mapSet fis.«variables» fv.name fv).lookup fv.name).isSome = true
  rw [lookup_mapSet_self]
  rfl

-- ============================================================================
-- C10 : the fired-rules list of infer
-- ============================================================================

theorem selectRuleResults_eq (outputVariableName : String) (eval : FuzzyRule → ℚ) :
    ∀ rules : List FuzzyRule,
      FuzzyInferenceSystem.selectRuleResults rules outputVariableName eval =
        (rules.filter (fun r => r.consequent.«variable» == outputVariableName)).map
          (fun r => (r, eval r)) := by
  intro rules
  induction rules with
  | nil => rfl
  | cons r rs ih =>
    unfold FuzzyInferenceSystem.selectRuleResults
    by_cases hc : r.consequent.«variable» = outputVariableName
    · rw [if_pos hc]
      have hb : (r.consequent.«variable» == outputVariableName) = true := by simpa using hc
      simp [List.filter_cons, hb, ih]
    · rw [if_neg hc]
      have hb : (r.consequent.«variable» == outputVariableName) = false := by simpa using hc
      simp [List.filter_cons, hb, ih]

/-- C10: whenever `infer` succeeds, the returned `firedRules` list is exactly
one `(ruleId, firingStrength)` entry per rule of the rule base whose
consequent targets the requested output variable, in rule-base order —
including rules with firing strength 0 and no rule targeting another
variable. -/
theorem infer_firedRules (fis : FuzzyInferenceSystem) (inputs : List (String × ℚ))
    (v : String) (fv : FuzzyVariable) (h : fis.«variables».lookup v = some fv) :
    (fis.infer inputs v).toOption.map Prod.snd =
      some ((fis.rules.filter (fun r => r.consequent.«variable» == v)).map
        (fun r => (r.id, FuzzyInferenceSystem.evaluateRule fis.config r
          (fis.fuzzifyInputs inputs)))) := by
  unfold FuzzyInferenceSystem.infer
  simp only [h]
  simp only [Except.toOption, Option.map]
  rw [selectRuleResults_eq, List.map_map]
  rfl

/-- A one-variable output space for the C10 witness system. -/
def witOutVariable : FuzzyVariable :=
  ⟨"out", (0, 1), [⟨"z", fun _ => 0, (0, 1)⟩]⟩

/-- A concrete inference system with one registered variable and two rules,
only the first of which targets the registered output variable. -/
def witFis : FuzzyInferenceSystem :=
  ⟨[("out", witOutVariable)],
   [⟨"r1", [], ⟨"out", "z"⟩, none, none⟩, ⟨"r2", [], ⟨"other", "z"⟩, none, none⟩],
   DEFAULT_FIS_CONFIG⟩

/-- C10 (witness): the fired-rules theorem applied to the concrete system
`witFis` with empty inputs. -/
theorem infer_firedRules_witness :
    witFis.«variables».lookup "out" = some witOutVariable ∧
    (witFis.infer [] "out").toOption.map Prod.snd =
      some ((witFis.rules.filter (fun r => r.consequent.«variable» == "out")).map
        (fun r => (r.id, FuzzyInferenceSystem.evaluateRule witFis.config r
          (witFis.fuzzifyInputs [])))) :=
  ⟨rfl, infer_firedRules witFis [] "out" witOutVariable rfl⟩

-- ============================================================================
-- C3 : centroid defuzzification of an all-zero profile
-- ============================================================================

theorem sets_fold_zero (memberships : List (String × ℚ)) (x : ℚ) :
    ∀ (sets : List FuzzySet), (∀ s ∈ sets, lookupD memberships s.name = 0) →
      ∀ agg : ℚ,
      sets.foldl
        (fun (agg : ℚ) s =>
          if lookupD memberships s.name > 0
          then max agg (min (lookupD memberships s.name) (s.membershipFunction x))
          else agg) agg = agg := by
  intro sets
  induction sets with
  | nil => intro _ agg; rfl
  | cons s ss ih =>
    intro h agg
    simp only [List.foldl_cons]
    rw [if_neg]
    · exact ih (fun q hq => h q (List.mem_cons_of_mem _ hq)) agg
    · rw [h s (List.mem_cons_self _ _)]
      norm_num

theorem foldl_const {α β : Type} : ∀ (l : List β) (a : α),
    List.foldl (fun acc _ => acc) a l = a := by
  intro l
  induction l with
  | nil => intro a; rfl
  | cons x xs ih =>
    intro a
    simp only [List.foldl_cons]
    exact ih a

theorem fold_points_zero (mn step : ℚ) (output : List ℚ)
    (h : ∀ i : ℕ, output.getD i 0 = 0) :
    ∀ (l : List ℕ) (a b : ℚ),
      l.foldl
        (fun (acc : ℚ × ℚ) (i : ℕ) =>
          (acc.1 + (mn + (i : ℚ) * step) * output.getD i 0, acc.2 + output.getD i 0))
        (a, b) = (a, b) := by
  intro l
  induction l with
  | nil => intro a b; rfl
  | cons i is ih =>
    intro a b
    simp only [List.foldl_cons, h i, mul_zero, add_zero]
    exact ih a b

theorem fis_centroid_all_zero (output : List ℚ) (h : ∀ i : ℕ, output.getD i 0 = 0)
    (mn step : ℚ) :
    FuzzyInferenceSystem.defuzzifyCentroid output mn step =
      (mn + ((output.length : ℚ) - 1) * step) / 2 := by
  simp only [FuzzyInferenceSystem.defuzzifyCentroid]
  rw [fold_points_zero mn step output h]
  norm_num

theorem getD_replicate_zero : ∀ (n i : ℕ), (List.replicate n (0 : ℚ)).getD i 0 = 0 := by
  intro n
  induction n with
  | zero => intro i; rfl
  | succ n ih =>
    intro i
    cases i with
    | zero => rfl
    | succ i => exact ih i

/-- C3: the standalone `defuzzifyCentroid` of `defuzzification.ts` returns the
midpoint `(min + max) / 2` of the domain for every all-zero membership map, as
the spec says; but the FIS-internal `defuzzifyCentroid` of `inference.ts`
returns `(min + (length - 1) * step) / 2 = max / 2` for the all-zero profile,
which differs from the midpoint whenever `min ≠ 0` — at domain `[2, 4]` with
the standard 101-sample profile it returns 2 instead of the midpoint 3. -/
theorem defuzzifyCentroid_zero_profile :
    (∀ (memberships : List (String × ℚ)) (fv : FuzzyVariable) (resolution : ℕ),
      (∀ s ∈ fv.sets, lookupD memberships s.name = 0) →
      defuzzifyCentroid memberships fv resolution = (fv.domain.1 + fv.domain.2) / 2) ∧
    FuzzyInferenceSystem.defuzzifyCentroid (List.replicate 101 (0 : ℚ)) 2 (1/50) = 2 ∧
    ((2 : ℚ) + 4) / 2 = 3 ∧
    FuzzyInferenceSystem.defuzzifyCentroid (List.replicate 101 (0 : ℚ)) 2 (1/50) ≠
      ((2 : ℚ) + 4) / 2 := by
  have hfis : FuzzyInferenceSystem.defuzzifyCentroid (List.replicate 101 (0 : ℚ)) 2 (1/50) = 2 := by
    rw [fis_centroid_all_zero (List.replicate 101 (0 : ℚ)) (getD_replicate_zero 101) 2 (1/50)]
    norm_num [List.length_replicate]
  refine ⟨?_, hfis, by norm_num, ?_⟩
  · intro memberships fv resolution h
    have hin : ∀ (x agg : ℚ),
        fv.sets.foldl
          (fun (agg : ℚ) s =>
            if lookupD memberships s.name > 0
            then max agg (min (lookupD memberships s.name) (s.membershipFunction x))
            else agg) agg = agg :=
      fun x => sets_fold_zero memberships x fv.sets h
    simp only [defuzzifyCentroid]
    simp only [hin, mul_zero, add_zero, Prod.mk.eta]
    rw [foldl_const]
    norm_num
  · rw [hfis]
    norm_num

/-- C3 (witness): the standalone midpoint fallback at a concrete variable over
domain `[2, 4]` with the empty membership map. -/
theorem defuzzifyCentroid_zero_profile_witness :
    (∀ s ∈ (⟨"relevance", ((2 : ℚ), (4 : ℚ)), []⟩ : FuzzyVariable).sets,
      lookupD [] s.name = 0) ∧
    defuzzifyCentroid [] ⟨"relevance", ((2 : ℚ), (4 : ℚ)), []⟩ 100 = ((2 : ℚ) + 4) / 2 :=
  ⟨by simp,
    defuzzifyCentroid_zero_profile.1 [] ⟨"relevance", (2, 4), []⟩ 100 (by simp)⟩
